import Mathlib

/-!
Verification of the piko distributed-routing core against its
natural-language specification.

The development shallowly embeds three subsystems of the repository:

* the cluster state (`server/cluster`, file `part_000`): nodes, their
  endpoint listener tables, and the mutation API;
* the proxy dispatcher (`server/proxy`, file `part_001`): endpoint-ID
  extraction, the local-then-remote routing policy, and synthesized error
  responses;
* the RPC stream shutdown and request-handling logic
  (`pkg/rpc/stream.go`).

Go maps are embedded as functions into `Option` (a key absent from the
map is sent to `none`); Go `int` is embedded as `Int`; panics and other
failure exits are embedded as `Option` results.
-/

namespace Piko

/-! ## Cluster state data model

Modelled from the spec: the `Node` record and the `NodeStatus` enum live
in a `server/cluster` file that is not part of the provided sources (only
`part_000`, the `State` implementation, is).  Per the spec, a node has an
immutable ID, a status in Active / Unreachable / Left, and an
endpoint-ID → listener-count table.  The address fields play no role in
the claims and are omitted. -/

inductive NodeStatus where
  | Active
  | Unreachable
  | Left
deriving DecidableEq

@[ext]
structure Node where
  ID : String
  Status : NodeStatus
  Endpoints : String → Option Int

/-- The cluster `State` of `part_000`: the local node's ID and the map
from node ID to node.  The subscriber list, metrics and mutex of the Go
struct are concurrency/observability apparatus with no effect on the
node map and are not embedded. -/
@[ext]
structure State where
  localID : String
  nodes : String → Option Node

/-- `NewState` (part_000 lines 28–45): forces the local node's status to
`Active` and creates the node map holding exactly the local node. -/
def NewState (localNode : Node) : State :=
  let localNode' : Node := { localNode with Status := NodeStatus.Active }
  { localID := localNode'.ID
    nodes := fun id => if id = localNode'.ID then some localNode' else none }

/-- `State.LocalID` (part_000 lines 61–64). -/
def State.LocalID (s : State) : String := s.localID

/-- `State.AddLocalEndpoint` (part_000 lines 108–126).  Increments the
local node's listener count for the endpoint (a missing key reads as 0,
as in Go).  The Go code panics when the local node is missing from the
map; the panic is embedded as `none`. -/
def State.AddLocalEndpoint (s : State) (endpointID : String) : Option State :=
  match s.nodes s.localID with
  | none => none
  | some node =>
    let node' : Node :=
      { node with Endpoints := fun k =>
          if k = endpointID then some ((node.Endpoints endpointID).getD 0 + 1)
          else node.Endpoints k }
    some { s with nodes := fun k => if k = s.localID then some node' else s.nodes k }

/-- `State.RemoveLocalEndpoint` (part_000 lines 129–157).  When the key
is absent or the count is 0 it only logs a warning and returns; when the
count is greater than 1 it decrements; otherwise it deletes the key.
The panic on a missing local node is embedded as `none`. -/
def State.RemoveLocalEndpoint (s : State) (endpointID : String) : Option State :=
  match s.nodes s.localID with
  | none => none
  | some node =>
    match node.Endpoints endpointID with
    | none => some s
    | some listeners =>
      if listeners = 0 then some s
      else
        let node' : Node :=
          { node with Endpoints :=
              if listeners > 1 then
                fun k => if k = endpointID then some (listeners - 1) else node.Endpoints k
              else
                fun k => if k = endpointID then none else node.Endpoints k }
        some { s with nodes := fun k => if k = s.localID then some node' else s.nodes k }

/-- `State.AddNode` (part_000 lines 172–189): refuses the local ID
(warns and returns), otherwise inserts or overwrites. -/
def State.AddNode (s : State) (node : Node) : State :=
  if node.ID = s.localID then s
  else { s with nodes := fun k => if k = node.ID then some node else s.nodes k }

/-- `State.RemoveNode` (part_000 lines 192–211): refuses the local ID and
unknown IDs (returning `false`), otherwise deletes the node. -/
def State.RemoveNode (s : State) (id : String) : State × Bool :=
  if id = s.localID then (s, false)
  else
    match s.nodes id with
    | none => (s, false)
    | some _ => ({ s with nodes := fun k => if k = id then none else s.nodes k }, true)

/-- `State.UpdateRemoteStatus` (part_000 lines 214–233): refuses the
local ID and unknown IDs, otherwise sets the node's status. -/
def State.UpdateRemoteStatus (s : State) (id : String) (status : NodeStatus) : State × Bool :=
  if id = s.localID then (s, false)
  else
    match s.nodes id with
    | none => (s, false)
    | some n =>
      let n' : Node := { n with Status := status }
      ({ s with nodes := fun k => if k = id then some n' else s.nodes k }, true)

/-- `State.UpdateRemoteEndpoint` (part_000 lines 237–263): refuses the
local ID and unknown IDs, otherwise stores the given listener count
verbatim under the endpoint key (including a count of 0). -/
def State.UpdateRemoteEndpoint (s : State) (id : String) (endpointID : String)
    (listeners : Int) : State × Bool :=
  if id = s.localID then (s, false)
  else
    match s.nodes id with
    | none => (s, false)
    | some n =>
      let n' : Node :=
        { n with Endpoints := fun k =>
            if k = endpointID then some listeners else n.Endpoints k }
      ({ s with nodes := fun k => if k = id then some n' else s.nodes k }, true)

/-- `State.RemoveRemoteEndpoint` (part_000 lines 267–287): refuses the
local ID and unknown IDs, otherwise deletes the endpoint key. -/
def State.RemoveRemoteEndpoint (s : State) (id : String) (endpointID : String) : State × Bool :=
  if id = s.localID then (s, false)
  else
    match s.nodes id with
    | none => (s, false)
    | some n =>
      let n' : Node :=
        { n with Endpoints := fun k => if k = endpointID then none else n.Endpoints k }
      ({ s with nodes := fun k => if k = id then some n' else s.nodes k }, true)

/-- The node with one endpoint binding replaced (the shape every
endpoint mutation above produces); used to phrase proof obligations. -/
def Node.withEndpoint (n : Node) (e : String) (v : Option Int) : Node :=
  { n with Endpoints := fun k => if k = e then v else n.Endpoints k }

/-- The state with the node stored under the local ID replaced (the
shape the local-endpoint mutations produce). -/
def State.withLocalNode (s : State) (n : Node) : State :=
  { s with nodes := fun k => if k = s.localID then some n else s.nodes k }

/-- The success condition of `State.LookupEndpoint`'s loop for one node
(part_000 line 99): the key is present with a strictly positive
listener count.  `LookupEndpoint` returns a node iff it is a non-local
node satisfying this. -/
def Node.routes (n : Node) (endpointID : String) : Bool :=
  match n.Endpoints endpointID with
  | some listeners => decide (listeners > 0)
  | none => false

/-- The states of the cluster reachable from `NewState` by the public
mutation API.  The two local-endpoint mutations carry their `Option`
success as a hypothesis (the Go code would panic in the `none` case). -/
inductive Reachable : State → Prop where
  | init (localNode : Node) : Reachable (NewState localNode)
  | addNode {s : State} (n : Node) : Reachable s → Reachable (s.AddNode n)
  | removeNode {s : State} (id : String) : Reachable s → Reachable (s.RemoveNode id).1
  | updateRemoteStatus {s : State} (id : String) (st : NodeStatus) :
      Reachable s → Reachable (s.UpdateRemoteStatus id st).1
  | updateRemoteEndpoint {s : State} (id endpointID : String) (listeners : Int) :
      Reachable s → Reachable (s.UpdateRemoteEndpoint id endpointID listeners).1
  | removeRemoteEndpoint {s : State} (id endpointID : String) :
      Reachable s → Reachable (s.RemoveRemoteEndpoint id endpointID).1
  | addLocalEndpoint {s s' : State} (endpointID : String) :
      Reachable s → s.AddLocalEndpoint endpointID = some s' → Reachable s'
  | removeLocalEndpoint {s s' : State} (endpointID : String) :
      Reachable s → s.RemoveLocalEndpoint endpointID = some s' → Reachable s'

/-! ## Sequences of local-endpoint mutations -/

/-- A call on the local-endpoint API for one fixed endpoint ID. -/
inductive LocalOp where
  | add
  | remove
deriving DecidableEq

/-- One call on the local-endpoint API (`none` embeds a panic on a
missing local node). -/
def applyLocalOp (e : String) (s : State) : LocalOp → Option State
  | LocalOp.add => s.AddLocalEndpoint e
  | LocalOp.remove => s.RemoveLocalEndpoint e

/-- Run a sequence of `AddLocalEndpoint e` / `RemoveLocalEndpoint e`
calls from a state. -/
def runLocalOps (e : String) (s : State) : List LocalOp → Option State
  | [] => some s
  | op :: rest =>
    match applyLocalOp e s op with
    | none => none
    | some s' => runLocalOps e s' rest

/-- Modelled from the spec: at startup the local node is created with
status `Active` and an empty endpoint table (the caller of `NewState` is
not among the provided sources); this is the "initial state" of the
claims about call sequences. -/
def initState (localID : String) : State :=
  NewState { ID := localID, Status := NodeStatus.Active, Endpoints := fun _ => none }

/-- The local node's listener count for an endpoint, an absent key (or,
vacuously, an absent local node) read as 0. -/
def localListeners (s : State) (e : String) : Int :=
  match s.nodes s.localID with
  | none => 0
  | some n => (n.Endpoints e).getD 0

/-- The count the code actually maintains: per-operation clamping.  An
`add` increments; a `remove` decrements when the count is positive and
is a no-op (a logged warning in the source) at 0.  Natural-number
subtraction performs exactly this clamping. -/
def listenerFoldFrom (c : Nat) (ops : List LocalOp) : Nat :=
  ops.foldl (fun c op => match op with | LocalOp.add => c + 1 | LocalOp.remove => c - 1) c

def listenerFold (ops : List LocalOp) : Nat :=
  listenerFoldFrom 0 ops

/-- Number of `add` calls in a sequence. -/
def countAdds (ops : List LocalOp) : Nat := (ops.filter (fun op => op = LocalOp.add)).length

/-- Number of `remove` calls in a sequence. -/
def countRemoves (ops : List LocalOp) : Nat :=
  (ops.filter (fun op => op = LocalOp.remove)).length

/-- The count formula asserted by the specification: number of `add`
calls minus number of `remove` calls, clamped at 0. -/
def claimedCount (ops : List LocalOp) : Int :=
  max ((countAdds ops : Int) - (countRemoves ops : Int)) 0

/-! ## Proxy dispatcher (`server/proxy`, file `part_001`)

An HTTP request is embedded by the two pieces the dispatcher reads: its
header table (`hdrGet`, the Go `r.Header.Get`, returning `""` for an
absent header) and its `Host`.  The outcomes of the local and remote
sub-proxies are inputs of the dispatcher: either an upstream response or
an error classified the way `Proxy.Request` classifies it with
`errors.Is` (the `endpointNotFound` sentinel, `context.DeadlineExceeded`,
or anything else). -/

/-- An HTTP response as the dispatcher produces it: a status code and an
optional body (`none` embeds a nil `Body`). -/
structure HttpResponse where
  StatusCode : Int
  Body : Option String
deriving DecidableEq

/-- Error classification used by `Proxy.Request`'s `errors.Is` tests. -/
inductive ProxyErr where
  | endpointNotFound
  | deadlineExceeded
  | other
deriving DecidableEq

/-- Outcome of a sub-proxy call `(resp, err)`: `ok resp` when `err` is
nil, `error e` otherwise. -/
inductive Outcome where
  | ok (resp : HttpResponse)
  | err (e : ProxyErr)
deriving DecidableEq

/-- The JSON body `json.Marshal(errorMessage\x7bError: message\x7d)`
produces for the dispatcher's messages (none of which needs JSON string
escaping). -/
def errorBody (message : String) : String :=
  "\x7b\"error\":\"" ++ message ++ "\"\x7d"

/-- `errorResponse` (part_001 lines 208–217): a synthesized response with
the given status code and the JSON error object as body. -/
def errorResponse (statusCode : Int) (message : String) : HttpResponse :=
  { StatusCode := statusCode, Body := some (errorBody message) }

/-- `strings.Split(s, ".")` on the character list of the host
(splitting on the one-character separator used by
`endpointIDFromRequest`). -/
def goSplitDot : List Char → List (List Char)
  | [] => [[]]
  | c :: rest =>
    let r := goSplitDot rest
    if c = '.' then [] :: r
    else
      match r with
      | [] => [[c]]
      | h :: t => (c :: h) :: t

/-- `endpointIDFromRequest` (part_001 lines 185–202): the
`x-piko-endpoint` header when non-empty; else, when `Host` is non-empty
and contains a `.`, `strings.Split(host, ".")[0]`; else the empty
string. -/
def endpointIDFromRequest (hdrGet : String → String) (host : String) : String :=
  let endpointID := hdrGet "x-piko-endpoint"
  if endpointID ≠ "" then endpointID
  else if host ≠ "" ∧ host.data.contains '.' then
    String.mk ((goSplitDot host.data).headD [])
  else ""

namespace Proxy

/-- `Proxy.Request` (part_001 lines 55–146), with the local and remote
sub-proxy outcomes as inputs.  The returned `Bool` records whether the
remote sub-proxy was invoked (the branches at and after line 118).  The
`forwarded` flag is the `x-piko-forward` header comparing equal to
`"true"`; when the dispatcher does forward, the source sets that header
to `"true"` on the outgoing request (line 114), which does not affect
the returned response. -/
def Request (hdrGet : String → String) (host : String)
    (localResult remoteResult : Outcome) : HttpResponse × Bool :=
  let forwarded := hdrGet "x-piko-forward" = "true"
  let endpointID := endpointIDFromRequest hdrGet host
  if endpointID = "" then
    (errorResponse 400 "missing piko endpoint id", false)
  else
    match localResult with
    | Outcome.ok resp => (resp, false)
    | Outcome.err e =>
      if e ≠ ProxyErr.endpointNotFound then
        if e = ProxyErr.deadlineExceeded then
          (errorResponse 504 "endpoint timeout", false)
        else
          (errorResponse 503 "endpoint unreachable", false)
      else if forwarded then
        (errorResponse 503 "endpoint not found", false)
      else
        match remoteResult with
        | Outcome.ok resp => (resp, true)
        | Outcome.err e2 =>
          if e2 ≠ ProxyErr.endpointNotFound then
            if e2 = ProxyErr.deadlineExceeded then
              (errorResponse 504 "endpoint timeout", true)
            else
              (errorResponse 503 "endpoint unreachable", true)
          else
            (errorResponse 503 "endpoint not found", true)

end Proxy

/-! ## RPC stream (`pkg/rpc/stream.go`) -/

namespace rpc

/-- Modelled from the spec: the flag word of an RPC header holds a
`Response` bit and an `ErrNotSupported` bit (the `flags` type lives in a
`pkg/rpc` file not among the provided sources; `stream.go` only calls
`SetResponse` and `SetErrNotSupported`). -/
structure Flags where
  response : Bool := false
  errNotSupported : Bool := false
deriving DecidableEq

/-- An RPC message header: type, 64-bit ID, flags. -/
structure Header where
  RPCType : Nat
  ID : Nat
  Flags : Flags
deriving DecidableEq

/-- A framed RPC message. -/
structure Message where
  Header : Header
  Payload : List UInt8
deriving DecidableEq

/-- `stream.handleRequest` (stream.go lines 268–315), with the handler
lookup `s.handler.Find` as an input.  Returns the single reply frame that
is enqueued on the write channel (whether the enqueue wins the race with
shutdown is concurrency outside the embedding) together with a `Bool`
recording whether a handler function was invoked. -/
def handleRequest (find : Nat → Option (List UInt8 → List UInt8)) (m : Message) :
    Message × Bool :=
  match find m.Header.RPCType with
  | none =>
    ({ Header := { RPCType := m.Header.RPCType, ID := m.Header.ID,
                   Flags := { response := true, errNotSupported := true } },
       Payload := [] }, false)
  | some handlerFunc =>
    ({ Header := { RPCType := m.Header.RPCType, ID := m.Header.ID,
                   Flags := { response := true, errNotSupported := false } },
       Payload := handlerFunc m.Payload }, true)

/-- The errors a stream shutdown can be triggered by: an explicit
`Close` passes `ErrStreamClosed`; the reader passes read/decode errors;
the writer passes write errors; `recoverPanic` passes a panic error. -/
inductive RpcError where
  | streamClosed
  | readErr
  | decodeErr
  | writeErr
  | panicErr
deriving DecidableEq

/-- The shutdown-relevant state of a `stream`: the `shutdown` CAS flag,
the stored `shutdownErr`, whether `shutdownCh` has been closed, and how
many times `conn.Close` has been called. -/
structure StreamState where
  shutdown : Bool
  shutdownErr : Option RpcError
  shutdownChClosed : Bool
  connCloses : Nat
deriving DecidableEq

/-- The state `NewStream` starts from (stream.go lines 70–85). -/
def initStream : StreamState :=
  { shutdown := false, shutdownErr := none, shutdownChClosed := false, connCloses := 0 }

/-- `stream.closeStream` (stream.go lines 246–266).  If the
compare-and-swap on `shutdown` fails it returns `ErrStreamClosed`
untouched; otherwise it stores `ErrStreamClosed` as `shutdownErr` (the
argument `err` is only logged), closes `shutdownCh`, and closes the
connection (embedded as a successful `conn.Close`, so the function
returns nil). -/
def closeStream (s : StreamState) (err : RpcError) : StreamState × Option RpcError :=
  if s.shutdown then (s, some RpcError.streamClosed)
  else
    ({ shutdown := true
       shutdownErr := some RpcError.streamClosed
       shutdownChClosed := true
       connCloses := s.connCloses + 1 }, none)

/-- `stream.Close` (stream.go lines 155–157). -/
def Close (s : StreamState) : StreamState × Option RpcError :=
  closeStream s RpcError.streamClosed

/-- What an in-flight `stream.RPC` caller returns when it observes the
closed `shutdownCh` (stream.go lines 111–112 and 123–124): the stored
`shutdownErr`. -/
def rpcShutdownResult (s : StreamState) : Option RpcError :=
  s.shutdownErr

/-- The stream state after a sequence of shutdown triggers (Close calls,
read/decode errors, write errors, recovered panics), starting from a
fresh stream. -/
def closeSeq (es : List RpcError) : StreamState :=
  es.foldl (fun st e => (closeStream st e).1) initStream

end rpc

/-! ## Theorems -/

/-- `goSplitDot` never produces an empty list of fragments. -/
theorem goSplitDot_ne_nil (l : List Char) : goSplitDot l ≠ [] := by
  cases l with
  | nil => simp [goSplitDot]
  | cons c rest =>
    simp only [goSplitDot]
    by_cases hc : c = '.'
    · simp [hc]
    · rw [if_neg hc]
      cases hr : goSplitDot rest with
      | nil => simp
      | cons h t => simp

/-- The first fragment of `strings.Split(s, ".")` is the longest prefix
of `s` free of `.`. -/
theorem goSplitDot_headD (l : List Char) :
    (goSplitDot l).headD [] = l.takeWhile (fun c => decide (c ≠ '.')) := by
  induction l with
  | nil => rfl
  | cons c rest ih =>
    simp only [goSplitDot]
    by_cases hc : c = '.'
    · subst hc
      simp [List.takeWhile_cons]
    · rw [if_neg hc]
      cases hr : goSplitDot rest with
      | nil => exact absurd hr (goSplitDot_ne_nil rest)
      | cons h t =>
        rw [hr] at ih
        simp only [List.headD_cons] at ih
        simp [List.takeWhile_cons, hc, ih]

/-- C7: `endpointIDFromRequest` returns the `x-piko-endpoint` header
value when it is non-empty; otherwise, when `Host` contains a `.`, the
substring of `Host` up to the first `.`; otherwise the empty string. -/
theorem c7_endpointIDFromRequest_spec (hdrGet : String → String) (host : String) :
    (hdrGet "x-piko-endpoint" ≠ "" →
      endpointIDFromRequest hdrGet host = hdrGet "x-piko-endpoint") ∧
    (hdrGet "x-piko-endpoint" = "" → host.data.contains '.' = true →
      endpointIDFromRequest hdrGet host
        = String.mk (host.data.takeWhile (fun c => decide (c ≠ '.')))) ∧
    (hdrGet "x-piko-endpoint" = "" → host.data.contains '.' = false →
      endpointIDFromRequest hdrGet host = "") := by
  unfold endpointIDFromRequest
  refine ⟨fun h => by rw [if_pos h], fun h hdot => ?_, fun h hdot => ?_⟩
  · have h1 : ¬hdrGet "x-piko-endpoint" ≠ "" := fun hc => hc h
    have hne : host ≠ "" := by
      intro he
      subst he
      exact absurd hdot (by decide)
    rw [if_neg h1, if_pos ⟨hne, hdot⟩]
    exact congrArg String.mk (goSplitDot_headD host.data)
  · have h1 : ¬hdrGet "x-piko-endpoint" ≠ "" := fun hc => hc h
    rw [if_neg h1, if_neg (fun hc => absurd hc.2 (by simpa using hdot))]

/-- Witness for C7 at the inputs named by the claim: `Host "a.b.c"`
yields `"a"`, `Host "a"` yields `""`, and the header wins over a dotted
host. -/
theorem c7_endpointIDFromRequest_spec_witness :
    endpointIDFromRequest (fun _ => "") "a.b.c" = "a" ∧
    endpointIDFromRequest (fun _ => "") "a" = "" ∧
    endpointIDFromRequest (fun h => if h = "x-piko-endpoint" then "ep" else "") "a.b.c"
      = "ep" := by
  refine ⟨?_, ?_, ?_⟩
  · have h := (c7_endpointIDFromRequest_spec (fun _ => "") "a.b.c").2.1 rfl (by decide)
    rw [h]; decide
  · exact (c7_endpointIDFromRequest_spec (fun _ => "") "a").2.2 rfl (by decide)
  · exact (c7_endpointIDFromRequest_spec
      (fun h => if h = "x-piko-endpoint" then "ep" else "") "a.b.c").1 (by decide)

/-- C2: an incoming request frame whose RPC type has no registered
handler is answered by exactly one reply frame carrying the same message
ID, the `Response` and `ErrNotSupported` bits set and an empty payload,
and no handler function is invoked. -/
theorem c2_handleRequest_not_supported
    (find : Nat → Option (List UInt8 → List UInt8)) (m : rpc.Message)
    (h : find m.Header.RPCType = none) :
    (rpc.handleRequest find m).1.Header.ID = m.Header.ID ∧
    (rpc.handleRequest find m).1.Header.Flags.response = true ∧
    (rpc.handleRequest find m).1.Header.Flags.errNotSupported = true ∧
    (rpc.handleRequest find m).1.Payload = [] ∧
    (rpc.handleRequest find m).2 = false := by
  unfold rpc.handleRequest
  rw [h]
  exact ⟨rfl, rfl, rfl, rfl, rfl⟩

/-- Witness for C2 at a concrete frame and an empty handler table. -/
theorem c2_handleRequest_not_supported_witness :
    (rpc.handleRequest (fun _ => none)
        { Header := { RPCType := 3, ID := 7, Flags := {} }, Payload := [1, 2] }).1.Header.ID
      = 7 ∧
    (rpc.handleRequest (fun _ => none)
        { Header := { RPCType := 3, ID := 7, Flags := {} }, Payload := [1, 2] }).2
      = false := by
  have h := c2_handleRequest_not_supported (fun _ => none)
    { Header := { RPCType := 3, ID := 7, Flags := {} }, Payload := [1, 2] } rfl
  exact ⟨h.1, h.2.2.2.2⟩

/-- C1: a forwarded request (header `x-piko-forward: true`) with a
non-empty endpoint ID whose local proxy attempt fails with
endpoint-not-found gets the synthesized 503 response with JSON body
`errorBody "endpoint not found"`, and the remote proxy is never
invoked — a forwarded request is never forwarded a second hop. -/
theorem c1_forwarded_single_hop (hdrGet : String → String) (host : String)
    (remoteResult : Outcome)
    (hfwd : hdrGet "x-piko-forward" = "true")
    (hep : endpointIDFromRequest hdrGet host ≠ "") :
    Proxy.Request hdrGet host (Outcome.err ProxyErr.endpointNotFound) remoteResult
      = (errorResponse 503 "endpoint not found", false) ∧
    (Proxy.Request hdrGet host (Outcome.err ProxyErr.endpointNotFound) remoteResult).1.Body
      = some (errorBody "endpoint not found") := by
  have h : Proxy.Request hdrGet host (Outcome.err ProxyErr.endpointNotFound) remoteResult
      = (errorResponse 503 "endpoint not found", false) := by
    simp [Proxy.Request, hep, hfwd]
  exact ⟨h, by rw [h]; rfl⟩

/-- Witness for C1 at a concrete forwarded request. -/
theorem c1_forwarded_single_hop_witness :
    Proxy.Request
      (fun h => if h = "x-piko-forward" then "true"
                else if h = "x-piko-endpoint" then "my-endpoint" else "")
      "" (Outcome.err ProxyErr.endpointNotFound)
      (Outcome.ok { StatusCode := 200, Body := none })
      = (errorResponse 503 "endpoint not found", false) :=
  (c1_forwarded_single_hop _ "" _ (by decide) (by decide)).1

/-- C10: for every request and every outcome of the local and remote
sub-proxies, `Proxy.Request` returns a response that is either the
upstream's response unchanged or one it synthesized itself, and every
synthesized response has status 400, 503 or 504 and the JSON error
object as its (non-nil) body. -/
theorem c10_request_always_responds (hdrGet : String → String) (host : String)
    (localResult remoteResult : Outcome) :
    localResult = Outcome.ok (Proxy.Request hdrGet host localResult remoteResult).1 ∨
    remoteResult = Outcome.ok (Proxy.Request hdrGet host localResult remoteResult).1 ∨
    (((Proxy.Request hdrGet host localResult remoteResult).1.StatusCode = 400 ∨
      (Proxy.Request hdrGet host localResult remoteResult).1.StatusCode = 503 ∨
      (Proxy.Request hdrGet host localResult remoteResult).1.StatusCode = 504) ∧
     ∃ message, (Proxy.Request hdrGet host localResult remoteResult).1.Body
        = some (errorBody message)) := by
  by_cases hep : endpointIDFromRequest hdrGet host = ""
  · have h : Proxy.Request hdrGet host localResult remoteResult
        = (errorResponse 400 "missing piko endpoint id", false) := by
      simp [Proxy.Request, hep]
    rw [h]
    exact Or.inr (Or.inr ⟨Or.inl rfl, "missing piko endpoint id", rfl⟩)
  · cases localResult with
    | ok resp =>
      have h : Proxy.Request hdrGet host (Outcome.ok resp) remoteResult
          = (resp, false) := by
        simp [Proxy.Request, hep]
      rw [h]
      exact Or.inl rfl
    | err e =>
      cases e with
      | deadlineExceeded =>
        have h : Proxy.Request hdrGet host (Outcome.err ProxyErr.deadlineExceeded)
            remoteResult = (errorResponse 504 "endpoint timeout", false) := by
          simp [Proxy.Request, hep]
        rw [h]
        exact Or.inr (Or.inr ⟨Or.inr (Or.inr rfl), "endpoint timeout", rfl⟩)
      | other =>
        have h : Proxy.Request hdrGet host (Outcome.err ProxyErr.other) remoteResult
            = (errorResponse 503 "endpoint unreachable", false) := by
          simp [Proxy.Request, hep]
        rw [h]
        exact Or.inr (Or.inr ⟨Or.inr (Or.inl rfl), "endpoint unreachable", rfl⟩)
      | endpointNotFound =>
        by_cases hfwd : hdrGet "x-piko-forward" = "true"
        · have h : Proxy.Request hdrGet host (Outcome.err ProxyErr.endpointNotFound)
              remoteResult = (errorResponse 503 "endpoint not found", false) := by
            simp [Proxy.Request, hep, hfwd]
          rw [h]
          exact Or.inr (Or.inr ⟨Or.inr (Or.inl rfl), "endpoint not found", rfl⟩)
        · cases remoteResult with
          | ok resp =>
            have h : Proxy.Request hdrGet host (Outcome.err ProxyErr.endpointNotFound)
                (Outcome.ok resp) = (resp, true) := by
              simp [Proxy.Request, hep, hfwd]
            rw [h]
            exact Or.inr (Or.inl rfl)
          | err e2 =>
            cases e2 with
            | deadlineExceeded =>
              have h : Proxy.Request hdrGet host
                  (Outcome.err ProxyErr.endpointNotFound)
                  (Outcome.err ProxyErr.deadlineExceeded)
                  = (errorResponse 504 "endpoint timeout", true) := by
                simp [Proxy.Request, hep, hfwd]
              rw [h]
              exact Or.inr (Or.inr ⟨Or.inr (Or.inr rfl), "endpoint timeout", rfl⟩)
            | other =>
              have h : Proxy.Request hdrGet host
                  (Outcome.err ProxyErr.endpointNotFound)
                  (Outcome.err ProxyErr.other)
                  = (errorResponse 503 "endpoint unreachable", true) := by
                simp [Proxy.Request, hep, hfwd]
              rw [h]
              exact Or.inr (Or.inr ⟨Or.inr (Or.inl rfl), "endpoint unreachable", rfl⟩)
            | endpointNotFound =>
              have h : Proxy.Request hdrGet host
                  (Outcome.err ProxyErr.endpointNotFound)
                  (Outcome.err ProxyErr.endpointNotFound)
                  = (errorResponse 503 "endpoint not found", true) := by
                simp [Proxy.Request, hep, hfwd]
              rw [h]
              exact Or.inr (Or.inr ⟨Or.inr (Or.inl rfl), "endpoint not found", rfl⟩)

/-- Counterexample to C3 as stated: when a read error triggers the first
shutdown, `closeStream` stores the sentinel `ErrStreamClosed` as the
shutdown error, not the read error that caused the shutdown. -/
theorem c3_closeStream_sentinel_cex :
    (rpc.closeStream rpc.initStream rpc.RpcError.readErr).1.shutdownErr
      ≠ some rpc.RpcError.readErr ∧
    (rpc.closeStream rpc.initStream rpc.RpcError.readErr).1.shutdownErr
      = some rpc.RpcError.streamClosed := by
  decide

/-- C3 as amended: whatever error triggers the first shutdown,
`closeStream` stores `ErrStreamClosed` (logging the trigger only), and
`ErrStreamClosed` is what every in-flight RPC caller waiting on the
stream receives. -/
theorem c3_closeStream_surfaces_streamClosed (s : rpc.StreamState) (e : rpc.RpcError)
    (h : s.shutdown = false) :
    (rpc.closeStream s e).1.shutdownErr = some rpc.RpcError.streamClosed ∧
    rpc.rpcShutdownResult (rpc.closeStream s e).1 = some rpc.RpcError.streamClosed := by
  unfold rpc.closeStream rpc.rpcShutdownResult
  rw [h]
  exact ⟨rfl, rfl⟩

/-- Witness for the amended C3 on a fresh stream and a write error. -/
theorem c3_closeStream_surfaces_streamClosed_witness :
    (rpc.closeStream rpc.initStream rpc.RpcError.writeErr).1.shutdownErr
      = some rpc.RpcError.streamClosed :=
  (c3_closeStream_surfaces_streamClosed rpc.initStream rpc.RpcError.writeErr rfl).1

/-- A `closeStream` on an already shut-down stream does nothing and
returns `ErrStreamClosed` (the failed compare-and-swap branch). -/
theorem closeStream_shutdown (s : rpc.StreamState) (e : rpc.RpcError)
    (h : s.shutdown = true) :
    rpc.closeStream s e = (s, some rpc.RpcError.streamClosed) := by
  unfold rpc.closeStream
  rw [h]
  simp

/-- Folding further triggers over a shut-down stream leaves it
untouched. -/
theorem foldl_closeStream_shutdown (es : List rpc.RpcError) (s : rpc.StreamState)
    (h : s.shutdown = true) :
    es.foldl (fun st e => (rpc.closeStream st e).1) s = s := by
  induction es with
  | nil => rfl
  | cons e rest ih =>
    rw [List.foldl_cons, closeStream_shutdown s e h]
    exact ih

/-- C9: over any non-empty sequence of shutdown triggers only the first
performs teardown: the shutdown channel is closed, the connection is
closed exactly once, and any later `Close` does no work and returns
`ErrStreamClosed`. -/
theorem c9_close_idempotent (es : List rpc.RpcError) (h : es ≠ []) :
    (rpc.closeSeq es).shutdown = true ∧
    (rpc.closeSeq es).shutdownChClosed = true ∧
    (rpc.closeSeq es).connCloses = 1 ∧
    rpc.Close (rpc.closeSeq es)
      = (rpc.closeSeq es, some rpc.RpcError.streamClosed) := by
  cases es with
  | nil => exact absurd rfl h
  | cons e rest =>
    have hfirst : (rpc.closeStream rpc.initStream e).1
        = { shutdown := true, shutdownErr := some rpc.RpcError.streamClosed,
            shutdownChClosed := true, connCloses := 1 } := rfl
    have hseq : rpc.closeSeq (e :: rest)
        = { shutdown := true, shutdownErr := some rpc.RpcError.streamClosed,
            shutdownChClosed := true, connCloses := 1 } := by
      unfold rpc.closeSeq
      rw [List.foldl_cons, hfirst]
      exact foldl_closeStream_shutdown rest _ rfl
    rw [hseq]
    exact ⟨rfl, rfl, rfl, closeStream_shutdown _ _ rfl⟩

/-- Witness for C9: a read error followed by two explicit `Close` calls
closes the connection exactly once. -/
theorem c9_close_idempotent_witness :
    (rpc.closeSeq [rpc.RpcError.readErr, rpc.RpcError.streamClosed,
        rpc.RpcError.streamClosed]).connCloses = 1 :=
  (c9_close_idempotent
    [rpc.RpcError.readErr, rpc.RpcError.streamClosed, rpc.RpcError.streamClosed]
    (by decide)).2.2.1

/-- C4: in every state reachable from `NewState` by any sequence of the
mutation API, the node stored under `LocalID()` is present, carries the
local ID, and has status `Active`. -/
theorem c4_local_node_always_active {s : State} (h : Reachable s) :
    ∃ n, s.nodes s.LocalID = some n ∧ n.ID = s.LocalID ∧
      n.Status = NodeStatus.Active := by
  unfold State.LocalID
  induction h with
  | init localNode =>
    refine ⟨{ localNode with Status := NodeStatus.Active }, ?_, rfl, rfl⟩
    show (if localNode.ID = localNode.ID then _ else none) = _
    rw [if_pos rfl]
  | @addNode s n _ ih =>
    obtain ⟨m, hm, hid, hact⟩ := ih
    unfold State.AddNode
    by_cases h1 : n.ID = s.localID
    · rw [if_pos h1]
      exact ⟨m, hm, hid, hact⟩
    · rw [if_neg h1]
      refine ⟨m, ?_, hid, hact⟩
      show (if s.localID = n.ID then some n else s.nodes s.localID) = some m
      rw [if_neg (fun hc => h1 hc.symm)]
      exact hm
  | @removeNode s id _ ih =>
    obtain ⟨m, hm, hid, hact⟩ := ih
    unfold State.RemoveNode
    by_cases h1 : id = s.localID
    · rw [if_pos h1]
      exact ⟨m, hm, hid, hact⟩
    · rw [if_neg h1]
      cases hn : s.nodes id with
      | none => exact ⟨m, hm, hid, hact⟩
      | some w =>
        refine ⟨m, ?_, hid, hact⟩
        show (if s.localID = id then none else s.nodes s.localID) = some m
        rw [if_neg (fun hc => h1 hc.symm)]
        exact hm
  | @updateRemoteStatus s id st _ ih =>
    obtain ⟨m, hm, hid, hact⟩ := ih
    unfold State.UpdateRemoteStatus
    by_cases h1 : id = s.localID
    · rw [if_pos h1]
      exact ⟨m, hm, hid, hact⟩
    · rw [if_neg h1]
      cases hn : s.nodes id with
      | none => exact ⟨m, hm, hid, hact⟩
      | some w =>
        refine ⟨m, ?_, hid, hact⟩
        show (if s.localID = id then _ else s.nodes s.localID) = some m
        rw [if_neg (fun hc => h1 hc.symm)]
        exact hm
  | @updateRemoteEndpoint s id endpointID listeners _ ih =>
    obtain ⟨m, hm, hid, hact⟩ := ih
    unfold State.UpdateRemoteEndpoint
    by_cases h1 : id = s.localID
    · rw [if_pos h1]
      exact ⟨m, hm, hid, hact⟩
    · rw [if_neg h1]
      cases hn : s.nodes id with
      | none => exact ⟨m, hm, hid, hact⟩
      | some w =>
        refine ⟨m, ?_, hid, hact⟩
        show (if s.localID = id then _ else s.nodes s.localID) = some m
        rw [if_neg (fun hc => h1 hc.symm)]
        exact hm
  | @removeRemoteEndpoint s id endpointID _ ih =>
    obtain ⟨m, hm, hid, hact⟩ := ih
    unfold State.RemoveRemoteEndpoint
    by_cases h1 : id = s.localID
    · rw [if_pos h1]
      exact ⟨m, hm, hid, hact⟩
    · rw [if_neg h1]
      cases hn : s.nodes id with
      | none => exact ⟨m, hm, hid, hact⟩
      | some w =>
        refine ⟨m, ?_, hid, hact⟩
        show (if s.localID = id then _ else s.nodes s.localID) = some m
        rw [if_neg (fun hc => h1 hc.symm)]
        exact hm
  | @addLocalEndpoint s s' endpointID _ hstep ih =>
    obtain ⟨m, hm, hid, hact⟩ := ih
    unfold State.AddLocalEndpoint at hstep
    simp only [hm, Option.some.injEq] at hstep
    subst hstep
    refine ⟨{ m with Endpoints := fun k =>
      if k = endpointID then some ((m.Endpoints endpointID).getD 0 + 1)
      else m.Endpoints k }, ?_, hid, hact⟩
    exact if_pos rfl
  | @removeLocalEndpoint s s' endpointID _ hstep ih =>
    obtain ⟨m, hm, hid, hact⟩ := ih
    unfold State.RemoveLocalEndpoint at hstep
    simp only [hm] at hstep
    cases he : m.Endpoints endpointID with
    | none =>
      simp only [he, Option.some.injEq] at hstep
      subst hstep
      exact ⟨m, hm, hid, hact⟩
    | some listeners =>
      simp only [he] at hstep
      by_cases h0 : listeners = 0
      · rw [if_pos h0] at hstep
        simp only [Option.some.injEq] at hstep
        subst hstep
        exact ⟨m, hm, hid, hact⟩
      · rw [if_neg h0] at hstep
        simp only [Option.some.injEq] at hstep
        subst hstep
        refine ⟨{ m with Endpoints :=
          if listeners > 1 then
            fun k => if k = endpointID then some (listeners - 1) else m.Endpoints k
          else
            fun k => if k = endpointID then none else m.Endpoints k }, ?_, hid, hact⟩
        exact if_pos rfl

/-- Witness for C4 after a concrete mutation sequence: a fresh state, a
remote node added and its status updated. -/
theorem c4_local_node_always_active_witness :
    ∃ n,
      ((((NewState { ID := "n1", Status := NodeStatus.Left, Endpoints := fun _ => none }).AddNode
            { ID := "n2", Status := NodeStatus.Active, Endpoints := fun _ => none }).UpdateRemoteStatus
            "n2" NodeStatus.Unreachable).1).nodes
          ((((NewState { ID := "n1", Status := NodeStatus.Left, Endpoints := fun _ => none }).AddNode
            { ID := "n2", Status := NodeStatus.Active, Endpoints := fun _ => none }).UpdateRemoteStatus
            "n2" NodeStatus.Unreachable).1).LocalID = some n ∧
        n.ID =
          ((((NewState { ID := "n1", Status := NodeStatus.Left, Endpoints := fun _ => none }).AddNode
            { ID := "n2", Status := NodeStatus.Active, Endpoints := fun _ => none }).UpdateRemoteStatus
            "n2" NodeStatus.Unreachable).1).LocalID ∧
        n.Status = NodeStatus.Active :=
  c4_local_node_always_active
    (Reachable.updateRemoteStatus "n2" NodeStatus.Unreachable
      (Reachable.addNode _ (Reachable.init _)))

/-- Looking the local node up after `withLocalNode` yields the stored
node. -/
theorem withLocalNode_self (s : State) (n : Node) :
    (s.withLocalNode n).nodes (s.withLocalNode n).localID = some n :=
  if_pos rfl

/-- Reading back the endpoint binding written by `withEndpoint`. -/
theorem withEndpoint_self (n : Node) (e : String) (v : Option Int) :
    (n.withEndpoint e v).Endpoints e = v :=
  if_pos rfl

/-- `AddLocalEndpoint` on a state whose local node is known. -/
theorem AddLocalEndpoint_eq (s : State) (n : Node) (e : String)
    (hm : s.nodes s.localID = some n) :
    s.AddLocalEndpoint e
      = some (s.withLocalNode (n.withEndpoint e (some ((n.Endpoints e).getD 0 + 1)))) := by
  unfold State.AddLocalEndpoint State.withLocalNode Node.withEndpoint
  rw [hm]

/-- `RemoveLocalEndpoint` on a state whose local node lacks the
endpoint. -/
theorem RemoveLocalEndpoint_eq_absent (s : State) (n : Node) (e : String)
    (hm : s.nodes s.localID = some n) (he : n.Endpoints e = none) :
    s.RemoveLocalEndpoint e = some s := by
  unfold State.RemoveLocalEndpoint
  simp only [hm, he]

/-- `RemoveLocalEndpoint` on a state whose local node has more than one
listener for the endpoint: decrement. -/
theorem RemoveLocalEndpoint_eq_dec (s : State) (n : Node) (e : String) (listeners : Int)
    (hm : s.nodes s.localID = some n) (he : n.Endpoints e = some listeners)
    (hgt : listeners > 1) :
    s.RemoveLocalEndpoint e
      = some (s.withLocalNode (n.withEndpoint e (some (listeners - 1)))) := by
  unfold State.RemoveLocalEndpoint State.withLocalNode Node.withEndpoint
  simp only [hm, he]
  rw [if_neg (by omega : ¬listeners = 0), if_pos hgt]

/-- `RemoveLocalEndpoint` on a state whose local node has exactly one
listener (or, per the source's `else` arm, any listener count that is
neither 0 nor above 1) for the endpoint: delete the key. -/
theorem RemoveLocalEndpoint_eq_del (s : State) (n : Node) (e : String) (listeners : Int)
    (hm : s.nodes s.localID = some n) (he : n.Endpoints e = some listeners)
    (h0 : ¬listeners = 0) (hle : ¬listeners > 1) :
    s.RemoveLocalEndpoint e = some (s.withLocalNode (n.withEndpoint e none)) := by
  unfold State.RemoveLocalEndpoint State.withLocalNode Node.withEndpoint
  simp only [hm, he]
  rw [if_neg h0, if_neg hle]

/-- `runLocalOps` steps through a successful mutation. -/
theorem runLocalOps_cons (e : String) (s s₁ : State) (op : LocalOp) (rest : List LocalOp)
    (hstep : applyLocalOp e s op = some s₁) :
    runLocalOps e s (op :: rest) = runLocalOps e s₁ rest := by
  show (match applyLocalOp e s op with
        | none => none
        | some s' => runLocalOps e s' rest) = runLocalOps e s₁ rest
  rw [hstep]

/-- The count maintained by the local-endpoint mutations: running a
sequence of add/remove calls for `e` never panics and tracks the
per-operation-clamped fold, with the key deleted exactly when the count
is 0. -/
theorem runLocalOps_listenerFold (e : String) (ops : List LocalOp) :
    ∀ (s : State) (n : Node) (c : Nat),
      s.nodes s.localID = some n →
      (c = 0 → n.Endpoints e = none) →
      (c ≠ 0 → n.Endpoints e = some (c : Int)) →
      ∃ (s' : State) (n' : Node),
        runLocalOps e s ops = some s' ∧
        s'.nodes s'.localID = some n' ∧
        (listenerFoldFrom c ops = 0 → n'.Endpoints e = none) ∧
        (listenerFoldFrom c ops ≠ 0 →
          n'.Endpoints e = some (listenerFoldFrom c ops : Int)) := by
  induction ops with
  | nil =>
    intro s n c hm h0 hpos
    exact ⟨s, n, rfl, hm, h0, hpos⟩
  | cons op rest ih =>
    intro s n c hm h0 hpos
    cases op with
    | add =>
      have hval : (n.Endpoints e).getD 0 = (c : Int) := by
        by_cases hc : c = 0
        · rw [h0 hc, hc]
          rfl
        · rw [hpos hc]
          rfl
      have hrun := runLocalOps_cons e s
        (s.withLocalNode (n.withEndpoint e (some ((n.Endpoints e).getD 0 + 1))))
        LocalOp.add rest (AddLocalEndpoint_eq s n e hm)
      obtain ⟨s', n', hr, hn, hz, hp⟩ := ih
        (s.withLocalNode (n.withEndpoint e (some ((n.Endpoints e).getD 0 + 1))))
        (n.withEndpoint e (some ((n.Endpoints e).getD 0 + 1)))
        (c + 1) (withLocalNode_self _ _)
        (fun hc => absurd hc (Nat.succ_ne_zero c))
        (fun _ => by
          rw [withEndpoint_self, hval]
          norm_num)
      refine ⟨s', n', ?_, hn, hz, hp⟩
      rw [hrun]
      exact hr
    | remove =>
      by_cases hc : c = 0
      · subst hc
        have hrun := runLocalOps_cons e s s LocalOp.remove rest
          (RemoveLocalEndpoint_eq_absent s n e hm (h0 rfl))
        obtain ⟨s', n', hr, hn, hz, hp⟩ := ih s n 0 hm h0 hpos
        refine ⟨s', n', ?_, hn, hz, hp⟩
        rw [hrun]
        exact hr
      · have hsome := hpos hc
        by_cases hc1 : 1 < c
        · have hgt : (c : Int) > 1 := by exact_mod_cast hc1
          have hrun := runLocalOps_cons e s
            (s.withLocalNode (n.withEndpoint e (some ((c : Int) - 1))))
            LocalOp.remove rest (RemoveLocalEndpoint_eq_dec s n e (c : Int) hm hsome hgt)
          obtain ⟨s', n', hr, hn, hz, hp⟩ := ih
            (s.withLocalNode (n.withEndpoint e (some ((c : Int) - 1))))
            (n.withEndpoint e (some ((c : Int) - 1)))
            (c - 1) (withLocalNode_self _ _)
            (fun hcc => absurd hcc (by omega))
            (fun _ => by
              rw [withEndpoint_self]
              congr 1
              omega)
          refine ⟨s', n', ?_, hn, hz, hp⟩
          rw [hrun]
          exact hr
        · have hc1' : c = 1 := by omega
          subst hc1'
          have hrun := runLocalOps_cons e s
            (s.withLocalNode (n.withEndpoint e none))
            LocalOp.remove rest
            (RemoveLocalEndpoint_eq_del s n e ((1 : Nat) : Int) hm hsome
              (by norm_num) (by norm_num))
          obtain ⟨s', n', hr, hn, hz, hp⟩ := ih
            (s.withLocalNode (n.withEndpoint e none))
            (n.withEndpoint e none)
            0 (withLocalNode_self _ _)
            (fun _ => withEndpoint_self _ _ _)
            (fun hcc => absurd rfl hcc)
          refine ⟨s', n', ?_, hn, hz, hp⟩
          rw [hrun]
          exact hr

/-- Counterexample to C5 as stated: after the sequence
`RemoveLocalEndpoint(e); AddLocalEndpoint(e)` from the initial state the
local count is 1, while "adds minus removes, clamped at 0" is 0. -/
theorem c5_clamped_difference_cex :
    (runLocalOps "e" (initState "node-1") [LocalOp.remove, LocalOp.add]).map
        (fun s' => localListeners s' "e") = some 1 ∧
    claimedCount [LocalOp.remove, LocalOp.add] = 0 := by
  constructor
  · rfl
  · rfl

/-- C5 as amended: for every sequence of `AddLocalEndpoint(e)` /
`RemoveLocalEndpoint(e)` calls from the initial state, no call panics
and the local count equals the left fold that increments on add and
decrements, clamped at 0 per operation, on remove (a remove at count 0
only logs a warning); in particular the count is never negative. -/
theorem c5_local_count_amended (localID e : String) (ops : List LocalOp) :
    ∃ s', runLocalOps e (initState localID) ops = some s' ∧
      localListeners s' e = (listenerFold ops : Int) ∧
      0 ≤ localListeners s' e := by
  have hinit : (initState localID).nodes (initState localID).localID
      = some { ID := localID, Status := NodeStatus.Active, Endpoints := fun _ => none } := by
    show (if localID = localID then _ else none) = _
    rw [if_pos rfl]
  obtain ⟨s', n', hr, hn, hz, hp⟩ := runLocalOps_listenerFold e ops (initState localID)
    { ID := localID, Status := NodeStatus.Active, Endpoints := fun _ => none } 0
    hinit (fun _ => rfl) (fun hc => absurd rfl hc)
  have hl : localListeners s' e = (n'.Endpoints e).getD 0 := by
    unfold localListeners
    rw [hn]
  refine ⟨s', hr, ?_, ?_⟩
  · rw [hl]
    by_cases hf : listenerFoldFrom 0 ops = 0
    · rw [hz hf]
      unfold listenerFold
      rw [hf]
      rfl
    · rw [hp hf]
      unfold listenerFold
      rfl
  · rw [hl]
    by_cases hf : listenerFoldFrom 0 ops = 0
    · rw [hz hf]
      norm_num
    · rw [hp hf]
      rw [Option.getD_some]
      exact_mod_cast Nat.zero_le _

/-- Counterexample to C6 as stated: the reachable state obtained by
adding remote node `n2` and calling `UpdateRemoteEndpoint("n2", "e", 0)`
binds endpoint `e` to the value 0 in `n2`'s endpoint map — the zero
count is stored, not deleted. -/
theorem c6_zero_count_cex :
    Reachable
      ((((NewState { ID := "n1", Status := NodeStatus.Active, Endpoints := fun _ => none }).AddNode
        { ID := "n2", Status := NodeStatus.Active, Endpoints := fun _ => none }).UpdateRemoteEndpoint
        "n2" "e" 0).1) ∧
    (((((NewState { ID := "n1", Status := NodeStatus.Active, Endpoints := fun _ => none }).AddNode
        { ID := "n2", Status := NodeStatus.Active, Endpoints := fun _ => none }).UpdateRemoteEndpoint
        "n2" "e" 0).1).nodes "n2").map (fun n => n.Endpoints "e") = some (some 0) := by
  constructor
  · exact Reachable.updateRemoteEndpoint "n2" "e" 0
      (Reachable.addNode _ (Reachable.init _))
  · rfl

/-- C6 as amended: `UpdateRemoteEndpoint` with `listeners = 0` stores
the key bound to 0 instead of deleting it, so a zero binding can occur;
it is however equivalent to absence for routing, since the per-node
condition of `LookupEndpoint` requires a strictly positive count. -/
theorem c6_update_zero_not_normalised (s : State) (id e : String) (n : Node)
    (hid : id ≠ s.localID) (hn : s.nodes id = some n) :
    ∃ n', (s.UpdateRemoteEndpoint id e 0).1.nodes id = some n' ∧
      n'.Endpoints e = some 0 ∧ n'.routes e = false := by
  unfold State.UpdateRemoteEndpoint
  rw [if_neg hid]
  simp only [hn]
  refine ⟨n.withEndpoint e (some 0), if_pos trivial, withEndpoint_self _ _ _, ?_⟩
  unfold Node.routes
  rw [withEndpoint_self]
  decide

/-- Witness for the amended C6 at a concrete two-node cluster. -/
theorem c6_update_zero_not_normalised_witness :
    ∃ n',
      (((NewState { ID := "n1", Status := NodeStatus.Active, Endpoints := fun _ => none }).AddNode
        { ID := "n2", Status := NodeStatus.Active,
          Endpoints := fun _ => none }).UpdateRemoteEndpoint "n2" "e" 0).1.nodes "n2"
        = some n' ∧
      n'.Endpoints "e" = some 0 ∧ n'.routes "e" = false :=
  c6_update_zero_not_normalised _ "n2" "e" _ (by decide) rfl

/-- C8: `AddLocalEndpoint(e)` immediately followed by
`RemoveLocalEndpoint(e)`, with no other mutations in between, restores
the state: the key is absent again if it was absent, and the count is
restored if it was positive. -/
theorem c8_add_remove_roundtrip (s : State) (e : String) (n : Node)
    (hm : s.nodes s.localID = some n)
    (h : n.Endpoints e = none ∨ ∃ c : Int, n.Endpoints e = some c ∧ 0 < c) :
    (s.AddLocalEndpoint e).bind (fun s₁ => s₁.RemoveLocalEndpoint e) = some s := by
  have h1 : (s.AddLocalEndpoint e).bind (fun s₁ => s₁.RemoveLocalEndpoint e)
      = (s.withLocalNode
          (n.withEndpoint e (some ((n.Endpoints e).getD 0 + 1)))).RemoveLocalEndpoint e := by
    rw [AddLocalEndpoint_eq s n e hm]
    rfl
  rw [h1]
  cases h with
  | inl habs =>
    have hv : (n.withEndpoint e (some ((n.Endpoints e).getD 0 + 1))).Endpoints e
        = some 1 := by
      rw [withEndpoint_self, habs]
      rfl
    rw [RemoveLocalEndpoint_eq_del _ _ e 1 (withLocalNode_self s _) hv
      (by norm_num) (by norm_num)]
    refine congrArg some ?_
    apply State.ext
    · rfl
    · funext k
      by_cases hk : k = s.localID
      · subst hk
        show (if s.localID = s.localID then _ else _) = s.nodes s.localID
        rw [if_pos rfl, hm]
        refine congrArg some ?_
        apply Node.ext
        · rfl
        · rfl
        · funext k2
          by_cases hk2 : k2 = e
          · show (if k2 = e then none else _) = n.Endpoints k2
            rw [if_pos hk2, hk2, habs]
          · show (if k2 = e then none else
                (if k2 = e then some _ else n.Endpoints k2)) = n.Endpoints k2
            rw [if_neg hk2, if_neg hk2]
      · show (if k = s.localID then _ else
            (if k = s.localID then _ else s.nodes k)) = s.nodes k
        rw [if_neg hk, if_neg hk]
  | inr hcase =>
    obtain ⟨c, hc, hcpos⟩ := hcase
    have hv : (n.withEndpoint e (some ((n.Endpoints e).getD 0 + 1))).Endpoints e
        = some (c + 1) := by
      rw [withEndpoint_self, hc]
      rfl
    rw [RemoveLocalEndpoint_eq_dec _ _ e (c + 1) (withLocalNode_self s _) hv (by omega)]
    refine congrArg some ?_
    apply State.ext
    · rfl
    · funext k
      by_cases hk : k = s.localID
      · subst hk
        show (if s.localID = s.localID then _ else _) = s.nodes s.localID
        rw [if_pos rfl, hm]
        refine congrArg some ?_
        apply Node.ext
        · rfl
        · rfl
        · funext k2
          by_cases hk2 : k2 = e
          · show (if k2 = e then some (c + 1 - 1) else _) = n.Endpoints k2
            rw [if_pos hk2, hk2, hc]
            congr 1
            omega
          · show (if k2 = e then some (c + 1 - 1) else
                (if k2 = e then some _ else n.Endpoints k2)) = n.Endpoints k2
            rw [if_neg hk2, if_neg hk2]
      · show (if k = s.localID then _ else
            (if k = s.localID then _ else s.nodes k)) = s.nodes k
        rw [if_neg hk, if_neg hk]

/-- Witness for C8: on the initial state (endpoint absent) the add /
remove pair is the identity. -/
theorem c8_add_remove_roundtrip_witness :
    ((initState "n1").AddLocalEndpoint "e").bind
      (fun s₁ => s₁.RemoveLocalEndpoint "e") = some (initState "n1") :=
  c8_add_remove_roundtrip (initState "n1") "e"
    { ID := "n1", Status := NodeStatus.Active, Endpoints := fun _ => none }
    rfl (Or.inl rfl)

end Piko
